import Mathlib

/-!
Verification of the competition-automation ingestion/extraction pipeline.

This file gives a shallow embedding, in Lean 4, of the core data flow of the
repository: the dedup/admission filter (src/workflow/3.insertdb.ts), the
field normalization and first-writer-wins merge of the extraction
orchestrator (src/workflow/4.data-extraction.ts), the provenance tracking of
extractSingle, the batch scheduler (inngest index), the WhatsApp delivery
gate (sendSingleCompetition) and the asset-relocation stage
(2.upload-to-r2.ts).  JavaScript values are modelled by the inductive type
JsVal; a JavaScript TypeError raised during normalization is modelled by
Option (none = the function threw).  All definitions are computable and
structural, so concrete runs evaluate by rfl / decide.
-/

namespace CompAuto

/-- JavaScript runtime values, as far as the pipeline inspects them.
Numbers are modelled as integers: every number the pipeline produces or
compares is an integer (parseInt results, rupiah amounts, counters). -/
inductive JsVal where
  | jnull
  | jundef
  | jstr (s : String)
  | jnum (n : Int)
  | jbool (b : Bool)
  | jarr (xs : List JsVal)
  | jobj (fields : List (String × JsVal))
deriving Repr, Inhabited

open JsVal

/-- JavaScript truthiness for the values above (Boolean(v)). -/
def truthy : JsVal → Bool
  | jnull => false
  | jundef => false
  | jstr s => !s.isEmpty
  | jnum n => n != 0
  | jbool b => b
  | jarr _ => true
  | jobj _ => true

/-- Property access `o[k]` on an object's own fields; a missing key yields
`undefined`, as in JavaScript. -/
def getF (fields : List (String × JsVal)) (k : String) : JsVal :=
  match fields.lookup k with
  | some v => v
  | none => jundef

/-- Whitespace characters removed by String.prototype.trim (the ones that
occur in the scraped data: ASCII whitespace and NBSP). -/
def jsWSChar (c : Char) : Bool :=
  c = ' ' || c = '\t' || c = '\n' || c = '\r' ||
  c = Char.ofNat 11 || c = Char.ofNat 12 || c = Char.ofNat 160

/-- JavaScript `s.trim()`: leading and trailing whitespace removed. -/
def jsTrim (s : String) : String :=
  String.mk (List.rdropWhile jsWSChar (s.data.dropWhile jsWSChar))

/-! ## Dedup & Admission Filter (src/workflow/3.insertdb.ts, insertToDb) -/

/-- Input shape of insertToDb: `{ title?, description?, image?, link? }`.
`none` covers both a missing key and an explicit null (the code only ever
applies `?? ""` to these fields, under which the two coincide). -/
structure PostData where
  title : Option String
  description : Option String
  image : Option String
  link : Option String

/-- Outcome of the per-candidate branch of insertToDb's filter loop. -/
inductive AdmitOutcome where
  | admitted
  | skipUrl
  | skipDesc
  | skipDup
deriving DecidableEq, Repr

/-- The decision taken by one iteration of insertToDb's filter loop
(lines 67-90 of 3.insertdb.ts), given the persisted url set, the persisted
trimmed-description set and the descriptions already seen in this batch. -/
def classify (existingUrls existingDescriptions seen : List String)
    (post : PostData) : AdmitOutcome :=
  let urlsource := post.link.getD ("")
  let description := jsTrim (post.description.getD (""))
  if !urlsource.isEmpty && existingUrls.contains urlsource then .skipUrl
  else if !description.isEmpty && existingDescriptions.contains description then .skipDesc
  else if !description.isEmpty && seen.contains description then .skipDup
  else .admitted

/-- Mutable state of insertToDb's filter loop: the admitted posts, the
within-batch seenDescriptions set and the three rejection counters. -/
structure FilterState where
  filteredPosts : List PostData
  seenDescriptions : List String
  skippedUrl : Nat
  skippedDescription : Nat
  skippedDuplication : Nat

def initFilterState : FilterState :=
  { filteredPosts := [], seenDescriptions := [],
    skippedUrl := 0, skippedDescription := 0, skippedDuplication := 0 }

/-- One iteration of the `for (const post of posts)` loop of insertToDb. -/
def filterStep (existingUrls existingDescriptions : List String)
    (st : FilterState) (post : PostData) : FilterState :=
  let description := jsTrim (post.description.getD (""))
  match classify existingUrls existingDescriptions st.seenDescriptions post with
  | .skipUrl => { st with skippedUrl := st.skippedUrl + 1 }
  | .skipDesc => { st with skippedDescription := st.skippedDescription + 1 }
  | .skipDup => { st with skippedDuplication := st.skippedDuplication + 1 }
  | .admitted =>
    { st with
      filteredPosts := st.filteredPosts ++ [post],
      seenDescriptions :=
        if description.isEmpty then st.seenDescriptions
        else st.seenDescriptions ++ [description] }

/-- The pure part of insertToDb: from the persisted (urlsource, description)
rows it builds the two dedup sets — urls pass `.filter(Boolean)` (drops null
and ""), descriptions additionally get trimmed — and folds the filter loop
over the input candidates. -/
def insertToDbFilter (existingRows : List (Option String × Option String))
    (posts : List PostData) : FilterState :=
  let existingUrls := (existingRows.filterMap Prod.fst).filter (fun u => !u.isEmpty)
  let existingDescriptions :=
    ((existingRows.filterMap Prod.snd).filter (fun d => !d.isEmpty)).map jsTrim
  posts.foldl (filterStep existingUrls existingDescriptions) initFilterState

/-- The quantity conserved by the filter loop: admitted + the three
rejection counters. -/
def admissionMeasure (st : FilterState) : Nat :=
  st.filteredPosts.length + st.skippedUrl + st.skippedDescription + st.skippedDuplication

/-! ## Field normalization (src/workflow/4.data-extraction.ts) -/

/-- ASCII lowercasing, as toLowerCase acts on the data seen here. -/
def lowerChar (c : Char) : Char :=
  if 'A' ≤ c && c ≤ 'Z' then Char.ofNat (c.toNat + 32) else c

/-- ASCII uppercasing, as toUpperCase acts on the data seen here. -/
def upperChar (c : Char) : Char :=
  if 'a' ≤ c && c ≤ 'z' then Char.ofNat (c.toNat - 32) else c

def lowerStr (s : String) : String := String.mk (s.data.map lowerChar)

def upperStr (s : String) : String := String.mk (s.data.map upperChar)

/-- Does the haystack start with the pattern (character-wise)? -/
def startsList : List Char → List Char → Bool
  | [], _ => true
  | _ :: _, [] => false
  | p :: ps, h :: hs => p == h && startsList ps hs

/-- Does the pattern occur anywhere in the haystack? -/
def subOccurs (pat : List Char) : List Char → Bool
  | [] => pat.isEmpty
  | h :: t => startsList pat (h :: t) || subOccurs pat t

/-- JavaScript `hay.includes(pat)`. -/
def strIncludes (hay pat : String) : Bool := subOccurs pat.data hay.data

/-- JavaScript `s.startsWith(pat)`. -/
def strStarts (s pat : String) : Bool := startsList pat.data s.data

def VALID_LEVELS : List String := [("SD"), ("SMP"), ("SMA"), ("Mahasiswa"), ("Umum")]

def VALID_FORMATS : List String := [("Online"), ("Offline"), ("Hybrid")]

def VALID_PARTICIPATION : List String := [("Individual"), ("Team")]

def CompetitionCategory : List String :=
  [("Akademik & Sains"), ("Teknologi & IT"), ("Seni & Kreatif"), ("Bisnis & Startup"),
   ("Olahraga & E-sports"), ("Sastra & Bahasa"), ("Sosial & Lingkungan"), ("Keagamaan"),
   ("Gaya Hidup & Hobi"), ("Lainnya")]

/-- parseRupiah of 4.data-extraction.ts: numbers pass through; a non-empty
string is stripped of all non-digits and parsed; everything else (and a
digit-free string, whose parseInt gives NaN) is null. -/
def parseRupiah : JsVal → Option Int
  | jnum n => some n
  | jstr s =>
    if s.isEmpty then none
    else
      let ds := s.data.filter Char.isDigit
      if ds.isEmpty then none
      else some (Int.ofNat (ds.foldl (fun acc c => acc * 10 + (c.toNat - 48)) 0))
  | _ => none

/-- normalizeLevel: exact match on trim().toUpperCase() against VALID_LEVELS,
else keyword containment on the untrimmed lowercased input, else null.
The guard `!level || typeof level !== "string"` maps non-strings and "" to
null. -/
def normalizeLevel : JsVal → Option String
  | jstr s =>
    if s.isEmpty then none
    else
      let normalized := upperStr (jsTrim s)
      if VALID_LEVELS.contains normalized then some normalized
      else
        let lower := lowerStr s
        if strIncludes lower ("sd") || strIncludes lower ("sekolah dasar") then some ("SD")
        else if strIncludes lower ("smp") || strIncludes lower ("m ts") then some ("SMP")
        else if strIncludes lower ("sma") || strIncludes lower ("smk") ||
            strIncludes lower ("ma") then some ("SMA")
        else if strIncludes lower ("mahasiswa") || strIncludes lower ("kuliah") ||
            strIncludes lower ("universitas") then some ("Mahasiswa")
        else if strIncludes lower ("umum") || strIncludes lower ("public") then some ("Umum")
        else none
  | _ => none

/-- normalizeCategory: exact trimmed match against the closed vocabulary,
else keyword containment on the lowercased trimmed input, with "Lainnya" as
the unconditional fallback bucket. -/
def normalizeCategory : JsVal → Option String
  | jstr s =>
    if s.isEmpty then none
    else
      let normalized := jsTrim s
      if CompetitionCategory.contains normalized then some normalized
      else
        let lower := lowerStr normalized
        if strIncludes lower ("akademik") || strIncludes lower ("sains") ||
            strIncludes lower ("olympiade") || strIncludes lower ("kti") ||
            strIncludes lower ("esai") || strIncludes lower ("riset") then
          some ("Akademik & Sains")
        else if strIncludes lower ("teknologi") || strIncludes lower ("it") ||
            strIncludes lower ("coding") || strIncludes lower ("programming") ||
            strIncludes lower ("robotik") || strIncludes lower ("ui") ||
            strIncludes lower ("ux") then
          some ("Teknologi & IT")
        else if strIncludes lower ("seni") || strIncludes lower ("kreatif") ||
            strIncludes lower ("desain") || strIncludes lower ("fotografi") ||
            strIncludes lower ("musik") || strIncludes lower ("tari") then
          some ("Seni & Kreatif")
        else if strIncludes lower ("bisnis") || strIncludes lower ("startup") ||
            strIncludes lower ("business") || strIncludes lower ("pitching") then
          some ("Bisnis & Startup")
        else if strIncludes lower ("olahraga") || strIncludes lower ("esport") ||
            strIncludes lower ("game") || strIncludes lower ("mobile legend") then
          some ("Olahraga & E-sports")
        else if strIncludes lower ("sastra") || strIncludes lower ("bahasa") ||
            strIncludes lower ("cerpen") || strIncludes lower ("puisi") then
          some ("Sastra & Bahasa")
        else if strIncludes lower ("sosial") || strIncludes lower ("lingkungan") then
          some ("Sosial & Lingkungan")
        else if strIncludes lower ("agama") || strIncludes lower ("islam") ||
            strIncludes lower ("mtq") then
          some ("Keagamaan")
        else some ("Lainnya")
  | _ => none

/-- normalizeFormat: exact trimmed match against VALID_FORMATS, else keyword
containment on the lowercased trimmed input, else null. -/
def normalizeFormat : JsVal → Option String
  | jstr s =>
    if s.isEmpty then none
    else
      let normalized := jsTrim s
      if VALID_FORMATS.contains normalized then some normalized
      else
        let lower := lowerStr normalized
        if strIncludes lower ("online") || strIncludes lower ("daring") ||
            strIncludes lower ("zoom") || strIncludes lower ("gmeet") then some ("Online")
        else if strIncludes lower ("offline") || strIncludes lower ("luring") ||
            strIncludes lower ("tatap muka") then some ("Offline")
        else if strIncludes lower ("hybrid") || strIncludes lower ("gabungan") then
          some ("Hybrid")
        else none
  | _ => none

/-- normalizeParticipationType: exact trimmed match, else keyword
containment, else null. -/
def normalizeParticipationType : JsVal → Option String
  | jstr s =>
    if s.isEmpty then none
    else
      let normalized := jsTrim s
      if VALID_PARTICIPATION.contains normalized then some normalized
      else
        let lower := lowerStr normalized
        if strIncludes lower ("individu") || strIncludes lower ("individual") ||
            strIncludes lower ("personal") then some ("Individual")
        else if strIncludes lower ("tim") || strIncludes lower ("team") ||
            strIncludes lower ("kelompok") || strIncludes lower ("group") then some ("Team")
        else none
  | _ => none

/-- The anchored regex: does the string match \d-four, dash, \d-two, dash,
\d-two exactly? -/
def isISOShaped (s : String) : Bool :=
  match s.data with
  | [a, b, c, d, h1, e, f, h2, g, i] =>
    a.isDigit && b.isDigit && c.isDigit && d.isDigit && h1 = '-' &&
    e.isDigit && f.isDigit && h2 = '-' && g.isDigit && i.isDigit
  | _ => false

def isDateSep (c : Char) : Bool := c = '/' || c = '-'

/-- Greedy candidates for \d-one-to-two at the head of the list: two digits
first, then one, exactly the backtracking order of the regex engine. -/
def digitCands : List Char → List (List Char × List Char)
  | a :: b :: rest =>
    if a.isDigit then
      if b.isDigit then [([a, b], rest), ([a], b :: rest)] else [([a], b :: rest)]
    else []
  | [a] => if a.isDigit then [([a], [])] else []
  | [] => []

/-- Try to match the unanchored day-month-year pattern at the head of the
list, in the regex engine's backtracking order. -/
def matchDMYAt (cs : List Char) : Option (String × String × String) :=
  (do
    let (d, r1) ← digitCands cs
    match r1 with
    | s1 :: r2 =>
      if isDateSep s1 then do
        let (m, r3) ← digitCands r2
        match r3 with
        | s2 :: r4 =>
          if isDateSep s2 then
            match r4 with
            | y1 :: y2 :: y3 :: y4 :: _ =>
              if y1.isDigit && y2.isDigit && y3.isDigit && y4.isDigit then
                [(String.mk d, String.mk m, String.mk [y1, y2, y3, y4])]
              else []
            | _ => []
          else []
        | [] => []
      else []
    | [] => []).head?

/-- Leftmost match of the day-month-year pattern, as String.prototype.match
finds it. -/
def findDMY : List Char → Option (String × String × String)
  | [] => none
  | c :: rest =>
    match matchDMYAt (c :: rest) with
    | some r => some r
    | none => findDMY rest

/-- JavaScript `m.padStart(2, "0")`. -/
def padStart2 (s : String) : String :=
  if s.length ≥ 2 then s else String.mk (List.replicate (2 - s.length) '0') ++ s

/-- normalizeDate: ISO passes through; a day/month/year or day-month-year
occurrence is reordered and zero-padded; anything else passes through
trimmed; non-strings and "" give null. -/
def normalizeDate : JsVal → Option String
  | jstr s =>
    if s.isEmpty then none
    else
      let cleaned := jsTrim s
      if isISOShaped cleaned then some cleaned
      else
        match findDMY cleaned.data with
        | some (d, m, y) => some (y ++ ("-") ++ padStart2 m ++ ("-") ++ padStart2 d)
        | none => some cleaned
  | _ => none

/-- The canonical accumulator shape: normalize assigns exactly these twelve
fields (in this order), and extractSingle initializes its accumulator with
all of them null. -/
structure Cleaned where
  organizer : JsVal
  level : JsVal
  pricing : JsVal
  contact : JsVal
  categories : JsVal
  format : JsVal
  participationType : JsVal
  title : JsVal
  startDate : JsVal
  endDate : JsVal
  url : JsVal
  location : JsVal
deriving Repr, Inhabited

/-- The organizer branch of normalize: a single string becomes a one-element
array (even the empty string, since only typeof is checked), a non-empty
array passes through unchanged, anything else becomes null. -/
def normOrganizer : JsVal → JsVal
  | jstr s => jarr [jstr s]
  | jarr (x :: xs) => jarr (x :: xs)
  | _ => jnull

/-- The level branch of normalize: a string is normalized against the enum;
a non-empty array is mapped through normalizeLevel with nulls filtered out
(`filter(Boolean)`); an empty surviving list collapses to null. -/
def normLevel : JsVal → JsVal
  | jstr s =>
    match normalizeLevel (jstr s) with
    | some l => jarr [jstr l]
    | none => jnull
  | jarr (x :: xs) =>
    let valid := (x :: xs).filterMap normalizeLevel
    if valid.isEmpty then jnull else jarr (valid.map jstr)
  | _ => jnull

/-- One element of a pricing array, `(p) => {...}` in the source.  The outer
`none` models the TypeError thrown when the element is null: then
`typeof p === "object"` holds and `p.amount` dereferences null.  The inner
option is the element's contribution (null contributions are filtered out). -/
def priceElem : JsVal → Option (Option Int)
  | jnum n => some (some n)
  | jstr s => some (parseRupiah (jstr s))
  | jnull => none
  | jobj fields =>
    if truthy (getF fields ("amount")) then some (parseRupiah (getF fields ("amount")))
    else some none
  | jarr _ => some none
  | jundef => some none
  | jbool _ => some none

/-- The pricing branch of normalize.  `none` models a thrown TypeError
(null element inside a pricing array). -/
def normPricing : JsVal → Option JsVal
  | jnum n => some (jarr [jnum n])
  | jstr s =>
    some (match parseRupiah (jstr s) with
      | some n => jarr [jnum n]
      | none => jnull)
  | jarr (x :: xs) =>
    match (x :: xs).mapM priceElem with
    | none => none
    | some opts =>
      let prices := opts.filterMap id
      some (if prices.isEmpty then jnull else jarr (prices.map jnum))
  | jobj fields =>
    if truthy (getF fields ("amount")) then
      some (match parseRupiah (getF fields ("amount")) with
        | some n => jarr [jnum n]
        | none => jnull)
    else some jnull
  | _ => some jnull

/-- The contact branch of normalize: a non-empty array keeps its non-blank
string elements verbatim; a non-blank string becomes a one-element trimmed
array; an empty surviving list collapses to null. -/
def normContact : JsVal → JsVal
  | jarr (x :: xs) =>
    let kept := (x :: xs).filter (fun c =>
      match c with
      | jstr s => !(jsTrim s).isEmpty
      | _ => false)
    if kept.isEmpty then jnull else jarr kept
  | jstr s => if (jsTrim s).isEmpty then jnull else jarr [jstr (jsTrim s)]
  | _ => jnull

/-- One element of a categories array.  As with pricing, a null element
throws (typeof null is "object" and `c.type` dereferences null), modelled by
the outer `none`. -/
def catElem : JsVal → Option (Option String)
  | jstr s => some (normalizeCategory (jstr s))
  | jnull => none
  | jobj fields =>
    if truthy (getF fields ("type")) then some (normalizeCategory (getF fields ("type")))
    else some none
  | jarr _ => some none
  | jundef => some none
  | jnum _ => some none
  | jbool _ => some none

/-- The categories branch of normalize.  `none` models a thrown TypeError
(null element inside a categories array). -/
def normCategories : JsVal → Option JsVal
  | jstr s =>
    some (match normalizeCategory (jstr s) with
      | some c => jarr [jstr c]
      | none => jnull)
  | jarr (x :: xs) =>
    match (x :: xs).mapM catElem with
    | none => none
    | some opts =>
      let valid := opts.filterMap id
      some (if valid.isEmpty then jnull else jarr (valid.map jstr))
  | jobj fields =>
    if truthy (getF fields ("type")) then
      some (match normalizeCategory (getF fields ("type")) with
        | some c => jarr [jstr c]
        | none => jnull)
    else some jnull
  | _ => some jnull

/-- The format branch of normalize: a single normalized string or null. -/
def normFormat : JsVal → JsVal
  | jstr s =>
    match normalizeFormat (jstr s) with
    | some f => jstr f
    | none => jnull
  | _ => jnull

/-- The participationType branch of normalize: array elements are normalized
with non-strings contributing null and nulls filtered out; a single string
becomes a one-element array. -/
def normParticipation : JsVal → JsVal
  | jarr (x :: xs) =>
    let valid := (x :: xs).filterMap (fun t =>
      match t with
      | jstr s => normalizeParticipationType (jstr s)
      | _ => none)
    if valid.isEmpty then jnull else jarr (valid.map jstr)
  | jstr s =>
    match normalizeParticipationType (jstr s) with
    | some p => jarr [jstr p]
    | none => jnull
  | _ => jnull

/-- A string value whose trim is non-empty, trimmed (the
`typeof v === "string" && v.trim()` guard followed by `v.trim()`). -/
def strTrimmedNonempty : JsVal → Option String
  | jstr s => if (jsTrim s).isEmpty then none else some (jsTrim s)
  | _ => none

/-- The title branch of normalize: data.title, then the legacy aliases
data.competitionName and data.name, in that order. -/
def normTitle (data : List (String × JsVal)) : JsVal :=
  match strTrimmedNonempty (getF data ("title")) with
  | some t => jstr t
  | none =>
    match strTrimmedNonempty (getF data ("competitionName")) with
    | some t => jstr t
    | none =>
      match strTrimmedNonempty (getF data ("name")) with
      | some t => jstr t
      | none => jnull

/-- The startDate/endDate branch of normalize: a non-empty array takes its
first element through normalizeDate; a non-blank string goes through
normalizeDate directly; anything else is null. -/
def normDateField : JsVal → JsVal
  | jarr (x :: _) =>
    match normalizeDate x with
    | some d => jstr d
    | none => jnull
  | jstr s =>
    if (jsTrim s).isEmpty then jnull
    else
      match normalizeDate (jstr s) with
      | some d => jstr d
      | none => jnull
  | _ => jnull

/-- The url branch of normalize: `data.url || data.registrationUrl`, then a
non-blank string is trimmed, an array contributes its first element if that
is a non-blank string, anything else is null. -/
def normUrl (data : List (String × JsVal)) : JsVal :=
  let urlValue :=
    if truthy (getF data ("url")) then getF data ("url") else getF data ("registrationUrl")
  match urlValue with
  | jstr s => if (jsTrim s).isEmpty then jnull else jstr (jsTrim s)
  | jarr (x :: _) =>
    match x with
    | jstr s => if (jsTrim s).isEmpty then jnull else jstr (jsTrim s)
    | _ => jnull
  | _ => jnull

/-- The location branch of normalize. -/
def normLocation : JsVal → JsVal
  | jstr s => if (jsTrim s).isEmpty then jnull else jstr (jsTrim s)
  | _ => jnull

/-- normalize of 4.data-extraction.ts.  `none` models the TypeError thrown
on a null element inside a pricing or categories array; otherwise all twelve
canonical fields are assigned. -/
def normalize (data : List (String × JsVal)) : Option Cleaned :=
  match normPricing (getF data ("pricing")), normCategories (getF data ("categories")) with
  | none, _ => none
  | _, none => none
  | some pricing, some categories =>
    some
    { organizer := normOrganizer (getF data ("organizer"))
      level := normLevel (getF data ("level"))
      pricing := pricing
      contact := normContact (getF data ("contact"))
      categories := categories
      format := normFormat (getF data ("format"))
      participationType := normParticipation (getF data ("participationType"))
      title := normTitle data
      startDate := normDateField (getF data ("startDate"))
      endDate := normDateField (getF data ("endDate"))
      url := normUrl data
      location := normLocation (getF data ("location")) }


/-! ## Merge (src/workflow/4.data-extraction.ts, merge) -/

/-- The emptiness test of merge: null, undefined, the empty string, the
empty array and the empty object count as empty; numbers (including 0) and
booleans (including false) do not. -/
def isEmptyVal : JsVal → Bool
  | jnull => true
  | jundef => true
  | jstr s => s.isEmpty
  | jarr xs => xs.isEmpty
  | jobj fields => fields.isEmpty
  | jnum _ => false
  | jbool _ => false

/-- The per-key body of merge's `for (const key in update)` loop: an empty
update value is skipped, a non-empty existing base value is protected, and
otherwise the update value is written.  (In the write case the source copies
an object value with a spread over `base[key] || {}`; since base[key] is
empty there, the copy has exactly the update value's fields, so it is that
value.) -/
def mergeField (baseValue value : JsVal) : JsVal :=
  if isEmptyVal value then baseValue
  else if !isEmptyVal baseValue then baseValue
  else value

/-- merge of 4.data-extraction.ts, applied at the accumulator shape actually
used: both the accumulator and every normalized provider output carry
exactly the twelve canonical keys, so the key loop acts field-by-field. -/
def merge (base update : Cleaned) : Cleaned :=
  { organizer := mergeField base.organizer update.organizer
    level := mergeField base.level update.level
    pricing := mergeField base.pricing update.pricing
    contact := mergeField base.contact update.contact
    categories := mergeField base.categories update.categories
    format := mergeField base.format update.format
    participationType := mergeField base.participationType update.participationType
    title := mergeField base.title update.title
    startDate := mergeField base.startDate update.startDate
    endDate := mergeField base.endDate update.endDate
    url := mergeField base.url update.url
    location := mergeField base.location update.location }

/-- The twelve canonical field names. -/
inductive Field where
  | organizer | level | pricing | contact | categories | format
  | participationType | title | startDate | endDate | url | location
deriving DecidableEq, Repr

/-- Field lookup on the accumulator shape. -/
def Cleaned.get (c : Cleaned) : Field → JsVal
  | .organizer => c.organizer
  | .level => c.level
  | .pricing => c.pricing
  | .contact => c.contact
  | .categories => c.categories
  | .format => c.format
  | .participationType => c.participationType
  | .title => c.title
  | .startDate => c.startDate
  | .endDate => c.endDate
  | .url => c.url
  | .location => c.location

/-! ## Extraction orchestrator (src/workflow/4.data-extraction.ts,
extractSingle) with provenance tracking -/

/-- The three provider identifiers. -/
inductive Provider where
  | zai | mistral | gemini
deriving DecidableEq, Repr

/-- Not null and not undefined (`v !== null && v !== undefined`). -/
def notNullish : JsVal → Bool
  | jnull => false
  | jundef => false
  | _ => true

/-- trackSource: record srcName for every non-nullish field of the provider
output whose provenance is not yet set (`if (!fieldSource[key])`). -/
def trackSource (sourceData : Cleaned) (srcName : Provider)
    (fs : Field → Option Provider) : Field → Option Provider :=
  fun f =>
    match fs f with
    | some p => some p
    | none => if notNullish (sourceData.get f) then some srcName else none

/-- trackNewFields: for every non-nullish field of the provider output, if
baseData holds null/undefined there, assign srcName (overwriting any
previous entry — the source assignment is unconditional). -/
def trackNewFields (baseData newData : Cleaned) (srcName : Provider)
    (fs : Field → Option Provider) : Field → Option Provider :=
  fun f =>
    if notNullish (newData.get f) && !notNullish (baseData.get f) then some srcName
    else fs f

/-- Zod type check for one string. -/
def isStrVal : JsVal → Bool
  | jstr _ => true
  | _ => false

/-- Accept null and undefined as well (`.nullish()`). -/
def nullish (ok : JsVal → Bool) (v : JsVal) : Bool :=
  match v with
  | jnull => true
  | jundef => true
  | _ => ok v

/-- Zod `z.union([z.string(), z.array(z.string())])`. -/
def strOrStrArr : JsVal → Bool
  | jstr _ => true
  | jarr xs => xs.all isStrVal
  | _ => false

/-- One enum token. -/
def enumVal (vocab : List String) : JsVal → Bool
  | jstr s => vocab.contains s
  | _ => false

/-- Zod `z.union([z.enum(vocab), z.array(z.enum(vocab))])`. -/
def enumOrEnumArr (vocab : List String) : JsVal → Bool
  | jstr s => vocab.contains s
  | jarr xs => xs.all (enumVal vocab)
  | _ => false

/-- Zod `z.union([z.number(), z.string(), z.array(z.union([z.number(), z.string()]))])`. -/
def pricingShapeOK : JsVal → Bool
  | jnum _ => true
  | jstr _ => true
  | jarr xs => xs.all (fun x =>
      match x with
      | jnum _ => true
      | jstr _ => true
      | _ => false)
  | _ => false

/-- Zod `z.record(z.string())`: an object all of whose values are strings. -/
def isRecordOfStr : JsVal → Bool
  | jobj fields => fields.all (fun kv => isStrVal kv.2)
  | _ => false

/-- Zod `z.array(z.record(z.string()))`. -/
def contactShapeOK : JsVal → Bool
  | jarr xs => xs.all isRecordOfStr
  | _ => false

/-- CompetitionSchema.safeParse(...).success on the accumulator shape
(lib/competition-schema.ts): every field nullish or of its declared type. -/
def schemaOK (c : Cleaned) : Bool :=
  nullish isStrVal c.title &&
  nullish strOrStrArr c.organizer &&
  nullish (enumOrEnumArr CompetitionCategory) c.categories &&
  nullish (enumOrEnumArr VALID_LEVELS) c.level &&
  nullish strOrStrArr c.startDate &&
  nullish strOrStrArr c.endDate &&
  nullish (enumVal VALID_FORMATS) c.format &&
  nullish (enumOrEnumArr VALID_PARTICIPATION) c.participationType &&
  nullish pricingShapeOK c.pricing &&
  nullish contactShapeOK c.contact &&
  nullish isStrVal c.url &&
  nullish isStrVal c.location

/-- The accumulator extractSingle starts from: all twelve fields null. -/
def initAccumulator : Cleaned :=
  { organizer := jnull, level := jnull, pricing := jnull, contact := jnull,
    categories := jnull, format := jnull, participationType := jnull, title := jnull,
    startDate := jnull, endDate := jnull, url := jnull, location := jnull }

/-- The per-item state of extractSingle: the accumulator, the provenance
map, the mistralSuccess flag of step 2 and whether the Gemini fallback was
invoked. -/
structure ExtractState where
  data : Cleaned
  fieldSource : Field → Option Provider
  mistralSuccess : Bool
  geminiCalled : Bool

def initExtractState : ExtractState :=
  { data := initAccumulator, fieldSource := fun _ => none,
    mistralSuccess := false, geminiCalled := false }

/-- A provider call's outcome: `none` if the call threw, otherwise the raw
object it returned. -/
abbrev ProviderResult := Option (List (String × JsVal))

/-- Step 1 of extractSingle: if the item has a non-blank description, call
the Zai text provider; on success merge its normalized output and track
provenance with trackSource; a thrown call or a throwing normalize is caught
and contributes nothing. -/
def step1Zai (description : Option String) (zaiResult : ProviderResult)
    (st : ExtractState) : ExtractState :=
  let d := description.getD ("")
  if !d.isEmpty && !(jsTrim d).isEmpty then
    match zaiResult with
    | none => st
    | some raw =>
      match normalize raw with
      | none => st
      | some normalized =>
        { st with
          data := merge st.data normalized,
          fieldSource := trackSource normalized Provider.zai st.fieldSource }
  else st

/-- Step 2 of extractSingle: call Mistral OCR unconditionally; validate the
normalized output against CompetitionSchema before accepting it.  On
acceptance the source first reassigns `data = merge(data, mistralParsed)`
and only then calls `trackNewFields(data, mistralParsed, "mistral")`, i.e.
with the post-merge accumulator as baseData (the `beforeMerge` snapshot on
the previous line is left unused). -/
def step2Mistral (mistralResult : ProviderResult) (st : ExtractState) : ExtractState :=
  match mistralResult with
  | none => st
  | some raw =>
    match normalize raw with
    | none => st
    | some mistralParsed =>
      if schemaOK mistralParsed then
        let newData := merge st.data mistralParsed
        { st with
          data := newData,
          fieldSource := trackNewFields newData mistralParsed Provider.mistral st.fieldSource,
          mistralSuccess := true }
      else st

/-- Step 3 of extractSingle: if and only if step 2 did not succeed, call the
Gemini fallback; its normalized output is merged and provenance tracked with
the pre-merge snapshot as baseData. -/
def step3Gemini (geminiResult : ProviderResult) (st : ExtractState) : ExtractState :=
  if st.mistralSuccess then st
  else
    let st1 := { st with geminiCalled := true }
    match geminiResult with
    | none => st1
    | some raw =>
      match normalize raw with
      | none => st1
      | some geminiParsed =>
        let beforeMerge := st1.data
        { st1 with
          data := merge st1.data geminiParsed,
          fieldSource := trackNewFields beforeMerge geminiParsed Provider.gemini st1.fieldSource }

/-- extractSingle of 4.data-extraction.ts, as a function of the item's
description and the three provider call outcomes. -/
def extractSingle (description : Option String)
    (zaiResult mistralResult geminiResult : ProviderResult) : ExtractState :=
  step3Gemini geminiResult (step2Mistral mistralResult (step1Zai description zaiResult initExtractState))

/-- Did step 2 succeed: the Mistral call returned, its normalization did not
throw, and the normalized output passed CompetitionSchema. -/
def mistralStepOk (mistralResult : ProviderResult) : Bool :=
  match mistralResult with
  | none => false
  | some raw =>
    match normalize raw with
    | none => false
    | some parsed => schemaOK parsed

/-! ## Batch scheduler (src/inngest/index.ts, processDraftBatchesFn) -/

/-- The chunk helper of the inngest module: slices of `size` starting at
0, size, 2*size, ...  The fuel argument (initialized to the list length)
makes the recursion structural; for size ≥ 1 one slice consumes at least one
element, so the fuel is never exhausted and the definition agrees with the
source loop.  (For size = 0 the source loop would never terminate.) -/
def chunkAux (size : Nat) : Nat → List α → List (List α)
  | 0, _ => []
  | _, [] => []
  | fuel + 1, x :: xs => ((x :: xs).take size) :: chunkAux size fuel ((x :: xs).drop size)

/-- The helper `chunk(array, size)` of src/inngest/index.ts. -/
def chunk (array : List α) (size : Nat) : List (List α) :=
  chunkAux size array.length array

/-- The orchestration shape of a run: a leaf is one record's extraction,
seq is an awaited for-loop (strictly sequential), par is a Promise.all
fan-out (concurrent). -/
inductive Plan where
  | leaf (id : Nat)
  | seq (ps : List Plan)
  | par (ps : List Plan)
deriving Repr

/-- extractData's driving loop (4.data-extraction.ts lines 742-788): records
of one batch are extracted one after another in an awaited for-loop. -/
def extractDataPlan (ids : List Nat) : Plan :=
  Plan.seq (ids.map Plan.leaf)

/-- processDraftBatchesFn: chunk the record IDs into batches of 2, then
`Promise.all(batches.map(...))` — a parallel fan-out across the batch
groups, each group running extractData sequentially inside. -/
def processDraftBatchesPlan (recordIds : List Nat) : Plan :=
  Plan.par ((chunk recordIds 2).map extractDataPlan)

/-- Does the plan fan out concurrently over two or more children at the top
level? -/
def hasParFanout : Plan → Bool
  | Plan.par ps => decide (2 ≤ ps.length)
  | _ => false

/-! ## Delivery gate (sendSingleCompetition, 1.web-scrape.ts lines 305-387) -/

/-- The record shape the delivery gate selects and updates;
whatsappChannel is the delivered flag. -/
structure Competition where
  id : Nat
  title : String
  poster : String
  level : Option (List String)
  url : String
  endDate : Option String
  whatsappChannel : Bool
deriving DecidableEq, Repr

/-- Outcome of one channel send, as seen through Promise.allSettled. -/
inductive SendOutcome where
  | rejected
  | fulfilled (ok : Bool)
deriving DecidableEq, Repr

/-- The failure test of sendSingleCompetition:
`r.status === "rejected" || (r.status === "fulfilled" && !r.value.ok)`. -/
def isFailedSend : SendOutcome → Bool
  | .rejected => true
  | .fulfilled ok => !ok

/-- sendSingleCompetition: send to every configured channel, settle all of
them, and throw when any send failed (the caller catches the throw and the
record keeps its flag); only when none failed run the UPDATE that sets
whatsappChannel = true.  The Bool is whether the function returned normally. -/
def sendSingleCompetition (comp : Competition) (outcomes : List SendOutcome) :
    Competition × Bool :=
  let failedSends := outcomes.filter isFailedSend
  if failedSends.length > 0 then (comp, false)
  else ({ comp with whatsappChannel := true }, true)

/-- The selection of fetchDraftCompetitions: not yet delivered, non-empty
title and poster, and endDate null or at least today (dates are ISO strings,
so the SQL comparison is the string order). -/
def selectedForDelivery (c : Competition) (today : String) : Bool :=
  !c.whatsappChannel && !c.title.isEmpty && !c.poster.isEmpty &&
  (match c.endDate with
   | none => true
   | some d => today ≤ d)

/-! ## Asset relocation (src/workflow/2.upload-to-r2.ts) -/

/-- Outcome of one fetch-and-put attempt inside uploadSingleImage:
everything up to the R2 put succeeded, or the attempt threw with a
retryable / non-retryable error (isRetryableError). -/
inductive AttemptOutcome where
  | ok
  | err (retryable : Bool)
deriving DecidableEq, Repr

/-- Input shape of uploadToR2: `{ title?, username?, image }`. -/
structure UploadPost where
  title : Option String
  username : Option String
  image : String
deriving DecidableEq, Repr

/-- The result record of uploadSingleImage (the error message is not
modelled). -/
structure UploadResult where
  success : Bool
  originalUrl : String
  r2Url : Option String
deriving DecidableEq, Repr

def isAlnumAscii (c : Char) : Bool :=
  ('a' ≤ c && c ≤ 'z') || ('A' ≤ c && c ≤ 'Z') || ('0' ≤ c && c ≤ '9')

/-- The sanitizedTitle expression of uploadSingleImage: a truthy string
title is cleaned (`replace(/[^a-z0-9]/gi, "_").toLowerCase().slice(0, 50)`),
else a string username is used verbatim, else "instagram". -/
def sanitizedTitle (post : UploadPost) : String :=
  match post.title with
  | some t =>
    if t.isEmpty then
      match post.username with
      | some u => u
      | none => ("instagram")
    else
      String.mk (((t.data.map (fun c => if isAlnumAscii c then c else '_')).map lowerChar).take 50)
  | none =>
    match post.username with
    | some u => u
    | none => ("instagram")

/-- The filename `Date.now() + "-" + sanitizedTitle + ".jpg"`; the clock value is a
parameter. -/
def mkFilename (now : Nat) (post : UploadPost) : String :=
  toString now ++ ("-") ++ sanitizedTitle post ++ (".jpg")

/-- The retry loop of uploadSingleImage, from a given attempt index with the
remaining attempts as fuel: a successful attempt returns the public URL, a
non-retryable error breaks out immediately, a retryable error consumes one
attempt, and exhausting maxAttempts fails. -/
def uploadAttempts (oracle : Nat → AttemptOutcome) (okUrl imageUrl : String) :
    Nat → Nat → UploadResult
  | _, 0 => { success := false, originalUrl := imageUrl, r2Url := none }
  | attempt, fuel + 1 =>
    match oracle attempt with
    | .ok => { success := true, originalUrl := imageUrl, r2Url := some okUrl }
    | .err r =>
      if r then uploadAttempts oracle okUrl imageUrl (attempt + 1) fuel
      else { success := false, originalUrl := imageUrl, r2Url := none }

/-- uploadSingleImage: an empty or non-http image URL fails immediately with
the original URL preserved; otherwise the retry loop runs with the public
URL built from the R2 base and the generated filename. -/
def uploadSingleImage (post : UploadPost) (oracle : Nat → AttemptOutcome)
    (maxAttempts : Nat) (r2PublicUrl : String) (now : Nat) : UploadResult :=
  let imageUrl := post.image
  if imageUrl.isEmpty || !strStarts imageUrl ("http") then
    { success := false, originalUrl := imageUrl, r2Url := none }
  else
    uploadAttempts oracle (r2PublicUrl ++ ("/") ++ mkFilename now post) imageUrl 0 maxAttempts

/-- The per-post pushes of uploadToR2's inner loop: on success the image is
replaced by the R2 URL, on failure by the (unchanged) original URL. -/
def applyUpload (post : UploadPost) (r : UploadResult) : UploadPost :=
  if r.success then { post with image := r.r2Url.getD ("") }
  else { post with image := r.originalUrl }

/-- Map with a running global index. -/
def mapIdxFrom (f : Nat → α → β) : Nat → List α → List β
  | _, [] => []
  | s, a :: t => f s a :: mapIdxFrom f (s + 1) t

/-- The two nested loops of uploadToR2: batches in order, posts of a batch
in order, with the global index threaded through (the source computes it as
startIdx + i; since every non-final slice is full, accumulating the slice
lengths yields the same indices). -/
def runBatches (f : Nat → UploadPost → UploadPost) :
    List (List UploadPost) → Nat → List UploadPost
  | [], _ => []
  | b :: bs, s => mapIdxFrom f s b ++ runBatches f bs (s + b.length)

/-- uploadToR2: when the bucket binding is absent the input list is returned
unchanged; otherwise every post is processed in order (in batches of
batchSize) and its image field replaced according to its upload result.
The per-post attempt outcomes and clock readings are oracles indexed by the
global post index. -/
def uploadToR2 (posts : List UploadPost) (bucketBound : Bool)
    (oracles : Nat → Nat → AttemptOutcome) (maxAttempts : Nat)
    (r2PublicUrl : String) (nows : Nat → Nat) (batchSize : Nat) : List UploadPost :=
  if !bucketBound then posts
  else
    runBatches
      (fun i p => applyUpload p (uploadSingleImage p (oracles i) maxAttempts r2PublicUrl (nows i)))
      (chunk posts batchSize) 0

/-! ## Well-formedness of normalized output (claim C10's invariant) -/

/-- Null or a non-empty array. -/
def nullOrNonemptyArr : JsVal → Bool
  | jnull => true
  | jarr (_ :: _) => true
  | _ => false

/-- Null or a string. -/
def nullOrStr : JsVal → Bool
  | jnull => true
  | jstr _ => true
  | _ => false

/-- Null or a non-empty string equal to its own trim. -/
def nullOrTrimmedStr : JsVal → Bool
  | jnull => true
  | jstr s => !s.isEmpty && (jsTrim s == s)
  | _ => false

/-- Not the empty array. -/
def notEmptyArr : JsVal → Bool
  | jarr [] => false
  | _ => true

/-- The shape invariant of normalize's output: every field defined, array
fields null or non-empty, format and the dates null or strings, free-text
fields null or trimmed non-empty strings. -/
def cleanedWF (c : Cleaned) : Bool :=
  nullOrNonemptyArr c.organizer &&
  nullOrNonemptyArr c.level &&
  nullOrNonemptyArr c.pricing &&
  nullOrNonemptyArr c.contact &&
  nullOrNonemptyArr c.categories &&
  nullOrStr c.format &&
  nullOrNonemptyArr c.participationType &&
  nullOrTrimmedStr c.title &&
  nullOrStr c.startDate &&
  nullOrStr c.endDate &&
  nullOrTrimmedStr c.url &&
  nullOrTrimmedStr c.location

/-! # Theorems -/

/-! ## Generic lemmas -/

theorem dropWhile_eq_cons_head_false (p : α → Bool) :
    ∀ (l : List α) (c : α) (t : List α), l.dropWhile p = c :: t → p c = false := by
  intro l
  induction l with
  | nil => intro c t h; simp [List.dropWhile] at h
  | cons a l ih =>
    intro c t h
    rw [List.dropWhile_cons] at h
    by_cases hp : p a
    · rw [if_pos hp] at h
      exact ih c t h
    · rw [if_neg hp] at h
      cases h
      simpa using hp

theorem dropWhile_rdropWhile_dropWhile (p : α → Bool) (l : List α) :
    List.dropWhile p (List.rdropWhile p (List.dropWhile p l)) =
    List.rdropWhile p (List.dropWhile p l) := by
  rcases hC : List.rdropWhile p (List.dropWhile p l) with _ | ⟨c, t⟩
  · simp
  · have hpre : List.rdropWhile p (List.dropWhile p l) <+: List.dropWhile p l :=
      List.rdropWhile_prefix p (List.dropWhile p l)
    rw [hC] at hpre
    obtain ⟨r, hr⟩ := hpre
    have hc : p c = false := by
      apply dropWhile_eq_cons_head_false p l c (t ++ r)
      rw [← hr]
      rfl
    rw [List.dropWhile_cons, if_neg (by simp [hc])]

theorem jsTrim_idem (s : String) : jsTrim (jsTrim s) = jsTrim s := by
  unfold jsTrim
  have h1 : (String.mk (List.rdropWhile jsWSChar (s.data.dropWhile jsWSChar))).data =
      List.rdropWhile jsWSChar (s.data.dropWhile jsWSChar) := rfl
  rw [h1, dropWhile_rdropWhile_dropWhile, List.rdropWhile_idempotent]

/-! ## C1: admission count conservation -/

theorem admissionMeasure_filterStep (u d : List String) (st : FilterState) (p : PostData) :
    admissionMeasure (filterStep u d st p) = admissionMeasure st + 1 := by
  unfold filterStep
  cases classify u d st.seenDescriptions p <;>
    simp [admissionMeasure] <;> omega

theorem admissionMeasure_foldl (u d : List String) :
    ∀ (posts : List PostData) (st : FilterState),
      admissionMeasure (posts.foldl (filterStep u d) st) = admissionMeasure st + posts.length := by
  intro posts
  induction posts with
  | nil => intro st; simp
  | cons p t ih =>
    intro st
    rw [List.foldl_cons, ih, admissionMeasure_filterStep]
    simp
    omega

/-- C1: for every input candidate list, the number of admitted records plus
the sum of the three rejection counters skippedUrl, skippedDescription and
skippedDuplication equals the number of input candidates. -/
theorem insertToDb_admission_count (existingRows : List (Option String × Option String))
    (posts : List PostData) :
    (insertToDbFilter existingRows posts).filteredPosts.length +
      ((insertToDbFilter existingRows posts).skippedUrl +
       (insertToDbFilter existingRows posts).skippedDescription +
       (insertToDbFilter existingRows posts).skippedDuplication) = posts.length := by
  have h := admissionMeasure_foldl
    ((existingRows.filterMap Prod.fst).filter (fun u => !u.isEmpty))
    (((existingRows.filterMap Prod.snd).filter (fun d => !d.isEmpty)).map jsTrim)
    posts initFilterState
  have h0 : admissionMeasure initFilterState = 0 := rfl
  rw [h0] at h
  unfold admissionMeasure at h
  simp only [insertToDbFilter]
  omega

/-! ## C5: exact-match dedup; blank fields never trigger their reasons -/

theorem str_isEmpty_false (s : String) : (s.isEmpty = false) ↔ ¬s = ("") := by
  rw [← String.isEmpty_iff s]
  simp

/-- C5: duplicate matching in the admission filter is exact string equality
on trimmed text; a candidate whose trimmed description is empty is never
rejected for reasons (b) or (c); a candidate with an empty sourceUrl is
never rejected for reason (a). -/
theorem classify_exact_matching (urls descs seen : List String) (post : PostData) :
    (jsTrim (post.description.getD ("")) = ("") →
      classify urls descs seen post ≠ .skipDesc ∧ classify urls descs seen post ≠ .skipDup) ∧
    (post.link.getD ("") = ("") → classify urls descs seen post ≠ .skipUrl) ∧
    (classify urls descs seen post = .skipUrl ↔
      post.link.getD ("") ≠ ("") ∧ post.link.getD ("") ∈ urls) ∧
    (classify urls descs seen post = .skipDesc ↔
      ¬(post.link.getD ("") ≠ ("") ∧ post.link.getD ("") ∈ urls) ∧
      jsTrim (post.description.getD ("")) ≠ ("") ∧
      jsTrim (post.description.getD ("")) ∈ descs) ∧
    (classify urls descs seen post = .skipDup ↔
      ¬(post.link.getD ("") ≠ ("") ∧ post.link.getD ("") ∈ urls) ∧
      ¬(jsTrim (post.description.getD ("")) ≠ ("") ∧
        jsTrim (post.description.getD ("")) ∈ descs) ∧
      jsTrim (post.description.getD ("")) ≠ ("") ∧
      jsTrim (post.description.getD ("")) ∈ seen) := by
  simp only [classify]
  split_ifs with h1 h2 h3 <;>
    simp_all [List.contains, List.elem_iff, String.isEmpty_iff, str_isEmpty_false,
      Bool.and_eq_true, Bool.not_eq_true']

theorem classify_exact_matching_witness :
    (classify [("http://a")] [("x")] []
        { title := none, description := some ("   "), image := none, link := some ("") } ≠ .skipDesc) ∧
    (classify [("http://a")] [("x")] []
        { title := none, description := some ("   "), image := none, link := some ("") } ≠ .skipUrl) ∧
    (classify [("http://a")] [("x")] []
        { title := none, description := some ("x"), image := none, link := some ("http://a") } = .skipUrl) := by
  refine ⟨?_, ?_, ?_⟩
  · exact ((classify_exact_matching _ _ _ _).1 (by decide)).1
  · exact (classify_exact_matching _ _ _ _).2.1 (by decide)
  · exact ((classify_exact_matching _ _ _ _).2.2.1).mpr (by decide)

/-! ## C2: first-writer-wins merge, idempotence -/

theorem mergeField_idem (b v : JsVal) : mergeField (mergeField b v) v = mergeField b v := by
  unfold mergeField
  rcases hv : isEmptyVal v <;> rcases hb : isEmptyVal b <;> simp [hv, hb]

theorem merge_get (b u : Cleaned) (f : Field) :
    (merge b u).get f = mergeField (b.get f) (u.get f) := by
  cases f <;> rfl

/-- C2: merge writes a field only when the accumulator does not already
hold a non-empty value for it (an empty update value is skipped, a
non-empty base value is protected), and merging the same normalized output
twice yields the same accumulator as merging it once. -/
theorem merge_first_writer_wins_idem (base upd : Cleaned) (f : Field) :
    (isEmptyVal (Cleaned.get base f) = false →
      Cleaned.get (merge base upd) f = Cleaned.get base f) ∧
    (isEmptyVal (Cleaned.get upd f) = true →
      Cleaned.get (merge base upd) f = Cleaned.get base f) ∧
    merge (merge base upd) upd = merge base upd := by
  refine ⟨?_, ?_, ?_⟩
  · intro h
    rw [merge_get]
    unfold mergeField
    rcases hv : isEmptyVal (Cleaned.get upd f) <;> simp [hv, h]
  · intro h
    rw [merge_get]
    unfold mergeField
    simp [h]
  · simp [merge, mergeField_idem]

theorem merge_first_writer_wins_idem_witness :
    (Cleaned.get (merge { initAccumulator with title := jstr ("kept") }
        { initAccumulator with title := jstr ("new"), url := jnull }) Field.title =
      Cleaned.get { initAccumulator with title := jstr ("kept") } Field.title) ∧
    (Cleaned.get (merge { initAccumulator with title := jstr ("kept") }
        { initAccumulator with title := jstr ("new"), url := jnull }) Field.url =
      Cleaned.get { initAccumulator with title := jstr ("kept") } Field.url) ∧
    merge (merge { initAccumulator with title := jstr ("kept") }
        { initAccumulator with title := jstr ("new"), url := jnull })
      { initAccumulator with title := jstr ("new"), url := jnull } =
    merge { initAccumulator with title := jstr ("kept") }
      { initAccumulator with title := jstr ("new"), url := jnull } := by
  refine ⟨?_, ?_, ?_⟩
  · exact (merge_first_writer_wins_idem _ _ Field.title).1 rfl
  · exact (merge_first_writer_wins_idem _ _ Field.url).2.1 rfl
  · exact (merge_first_writer_wins_idem _ _ Field.url).2.2

/-! ## C7: delivery is all-channels-or-nothing -/

/-- C7: a record is marked delivered exactly when the send to every
configured channel succeeded; if any single channel send rejects or returns
a non-ok response, the function throws instead, the record is unchanged
(flag still false), and its delivery-selection status is unchanged, so it
is picked up again by a future run. -/
theorem sendSingleCompetition_all_or_nothing (comp : Competition)
    (outcomes : List SendOutcome) (today : String) :
    ((sendSingleCompetition comp outcomes).2 = true ↔
      outcomes.all (fun o => !isFailedSend o) = true) ∧
    ((sendSingleCompetition comp outcomes).2 = true →
      (sendSingleCompetition comp outcomes).1 = { comp with whatsappChannel := true }) ∧
    ((sendSingleCompetition comp outcomes).2 = false →
      (sendSingleCompetition comp outcomes).1 = comp) ∧
    ((sendSingleCompetition comp outcomes).2 = false →
      selectedForDelivery (sendSingleCompetition comp outcomes).1 today =
        selectedForDelivery comp today) := by
  unfold sendSingleCompetition
  by_cases h : (outcomes.filter isFailedSend).length > 0
  · simp only [if_pos h]
    have hne : ¬outcomes.all (fun o => !isFailedSend o) = true := by
      intro hall
      rcases List.exists_mem_of_length_pos h with ⟨o, ho⟩
      have := List.of_mem_filter ho
      have h2 := List.all_eq_true.mp hall o (List.mem_of_mem_filter ho)
      simp at h2
      simp [h2] at this
    simp [hne]
  · simp only [if_neg h]
    have hall : outcomes.all (fun o => !isFailedSend o) = true := by
      rw [List.all_eq_true]
      intro o ho
      by_contra hno
      have hf : isFailedSend o = true := by
        revert hno
        cases isFailedSend o <;> simp
      exact h (List.length_pos.mpr (List.ne_nil_of_mem (List.mem_filter.mpr ⟨ho, hf⟩)))
    simp [hall]

theorem sendSingleCompetition_all_or_nothing_witness :
    ((sendSingleCompetition
        { id := 1, title := ("AI Challenge 2025"), poster := ("https://x/img.jpg"),
          level := none, url := (""), endDate := none, whatsappChannel := false }
        [SendOutcome.fulfilled true]).2 = true) ∧
    ((sendSingleCompetition
        { id := 1, title := ("AI Challenge 2025"), poster := ("https://x/img.jpg"),
          level := none, url := (""), endDate := none, whatsappChannel := false }
        [SendOutcome.fulfilled true, SendOutcome.rejected]).1 =
      { id := 1, title := ("AI Challenge 2025"), poster := ("https://x/img.jpg"),
        level := none, url := (""), endDate := none, whatsappChannel := false }) := by
  constructor
  · exact (sendSingleCompetition_all_or_nothing
      { id := 1, title := ("AI Challenge 2025"), poster := ("https://x/img.jpg"),
        level := none, url := (""), endDate := none, whatsappChannel := false }
      [SendOutcome.fulfilled true] ("2025-01-01")).1.mpr (by decide)
  · exact (sendSingleCompetition_all_or_nothing
      { id := 1, title := ("AI Challenge 2025"), poster := ("https://x/img.jpg"),
        level := none, url := (""), endDate := none, whatsappChannel := false }
      [SendOutcome.fulfilled true, SendOutcome.rejected] ("2025-01-01")).2.2.1 (by decide)

/-! ## C6: batch scheduler shape -/

theorem chunkAux_join (n : Nat) :
    ∀ (fuel : Nat) (l : List α), l.length ≤ fuel → (chunkAux (n + 1) fuel l).flatten = l := by
  intro fuel
  induction fuel with
  | zero =>
    intro l h
    have : l = [] := List.eq_nil_of_length_eq_zero (Nat.le_zero.mp h)
    subst this
    simp [chunkAux]
  | succ f ih =>
    intro l h
    cases l with
    | nil => simp [chunkAux]
    | cons x xs =>
      have hlen : ((x :: xs).drop (n + 1)).length ≤ f := by
        simp [List.length_drop] at *
        omega
      simp only [chunkAux, List.flatten_cons]
      rw [ih _ hlen, List.take_append_drop]

theorem chunkAux_mem_size (n : Nat) :
    ∀ (fuel : Nat) (l : List α) (g : List α), g ∈ chunkAux (n + 1) fuel l →
      g.length ≤ n + 1 ∧ g ≠ [] := by
  intro fuel
  induction fuel with
  | zero => intro l g h; simp [chunkAux] at h
  | succ f ih =>
    intro l g h
    cases l with
    | nil => simp [chunkAux] at h
    | cons x xs =>
      simp only [chunkAux, List.mem_cons] at h
      rcases h with h | h
      · subst h
        constructor
        · simp
        · simp [List.take_cons]
      · exact ih _ g h

/-- C6 counterexample: for the four record IDs 1,2,3,4 the scheduler's plan
is a Promise.all fan-out over two batch groups — concurrent across groups,
not sequential as the claim states. -/
theorem processDraftBatches_parallel_cex :
    hasParFanout (processDraftBatchesPlan [1, 2, 3, 4]) = true := by rfl

/-- C6 amended: the scheduler partitions the admitted record IDs into groups
of the fixed size 2 preserving order (joining the groups restores the input,
every group is non-empty with at most 2 elements), and extraction is
sequential within each group; but the groups themselves are driven by a
concurrent Promise.all fan-out, not sequentially. -/
theorem processDraftBatches_partition (ids : List Nat) :
    ((chunk ids 2).flatten = ids) ∧
    (∀ g ∈ chunk ids 2, g.length ≤ 2 ∧ g ≠ []) ∧
    processDraftBatchesPlan ids =
      Plan.par ((chunk ids 2).map (fun g => Plan.seq (g.map Plan.leaf))) := by
  refine ⟨?_, ?_, rfl⟩
  · exact chunkAux_join 1 ids.length ids (Nat.le_refl _)
  · intro g hg
    exact chunkAux_mem_size 1 ids.length ids g hg

theorem processDraftBatches_partition_witness :
    ((chunk [5, 6, 7] 2).flatten = [5, 6, 7]) ∧
    ([5, 6].length ≤ 2 ∧ [5, 6] ≠ ([] : List Nat)) := by
  constructor
  · exact (processDraftBatches_partition [5, 6, 7]).1
  · exact (processDraftBatches_partition [5, 6, 7]).2.1 [5, 6] (by decide)

/-! ## C3 / C4: extraction orchestrator -/

theorem step1Zai_flags (d : Option String) (z : ProviderResult) (st : ExtractState) :
    (step1Zai d z st).mistralSuccess = st.mistralSuccess ∧
    (step1Zai d z st).geminiCalled = st.geminiCalled := by
  simp only [step1Zai]
  cases hc : (!(d.getD ("")).isEmpty && !(jsTrim (d.getD (""))).isEmpty)
  · simp
  · cases z with
    | none => simp
    | some raw => cases hn : normalize raw <;> simp [hn]

theorem step2Mistral_gemini (m : ProviderResult) (st : ExtractState) :
    (step2Mistral m st).geminiCalled = st.geminiCalled := by
  simp only [step2Mistral]
  cases m with
  | none => rfl
  | some raw =>
    cases hn : normalize raw with
    | none => simp [hn]
    | some parsed => cases hs : schemaOK parsed <;> simp [hn, hs]

theorem step2Mistral_success (m : ProviderResult) (st : ExtractState)
    (h : st.mistralSuccess = false) :
    (step2Mistral m st).mistralSuccess = mistralStepOk m := by
  simp only [step2Mistral, mistralStepOk]
  cases m with
  | none => simpa using h
  | some raw =>
    cases hn : normalize raw with
    | none => simp [hn, h]
    | some parsed => cases hs : schemaOK parsed <;> simp [hn, hs, h]

theorem step3Gemini_called (g : ProviderResult) (st : ExtractState) :
    (step3Gemini g st).geminiCalled = (st.geminiCalled || !st.mistralSuccess) := by
  simp only [step3Gemini]
  cases hm : st.mistralSuccess
  · cases g with
    | none => simp
    | some raw => cases hn : normalize raw <;> simp [hn]
  · simp

theorem step3Gemini_mistralSuccess (g : ProviderResult) (st : ExtractState) :
    (step3Gemini g st).mistralSuccess = st.mistralSuccess := by
  simp only [step3Gemini]
  cases hm : st.mistralSuccess
  · cases g with
    | none => simp
    | some raw => cases hn : normalize raw <;> simp [hn]
  · simp [hm]

theorem step3Gemini_none_data (st : ExtractState) :
    (step3Gemini none st).data = st.data := by
  simp only [step3Gemini]
  cases hm : st.mistralSuccess <;> simp

/-- C4: the Gemini fallback is invoked if and only if the Mistral step did
not succeed (the call threw, its normalization threw, or the normalized
output failed CompetitionSchema); mistralSuccess records exactly that
success; and when both image providers throw, the final accumulator is
exactly what step 1 (text extraction) produced. -/
theorem extractSingle_gemini_fallback (description : Option String)
    (zaiResult mistralResult geminiResult : ProviderResult) :
    ((extractSingle description zaiResult mistralResult geminiResult).geminiCalled =
      !mistralStepOk mistralResult) ∧
    ((extractSingle description zaiResult mistralResult geminiResult).mistralSuccess =
      mistralStepOk mistralResult) ∧
    ((extractSingle description zaiResult none none).data =
      (step1Zai description zaiResult initExtractState).data) := by
  have h1 := step1Zai_flags description zaiResult initExtractState
  have h1s : (step1Zai description zaiResult initExtractState).mistralSuccess = false := by
    rw [h1.1]; rfl
  have h1g : (step1Zai description zaiResult initExtractState).geminiCalled = false := by
    rw [h1.2]; rfl
  have h2s := step2Mistral_success mistralResult _ h1s
  refine ⟨?_, ?_, ?_⟩
  · unfold extractSingle
    rw [step3Gemini_called, step2Mistral_gemini, h1g, h2s]
    simp
  · unfold extractSingle
    rw [step3Gemini_mistralSuccess, h2s]
  · unfold extractSingle
    rw [step3Gemini_none_data]
    rfl

/-- C3: the code drops Mistral's provenance.  With no caption (step 1
skipped) and a Mistral output supplying only the title, the final
accumulator's title is non-null and came from Mistral (step 2 succeeded),
yet the provenance map has no entry for title — because trackNewFields is
called with the post-merge accumulator as its baseline, so every field
Mistral just filled looks pre-existing.  The unused beforeMerge snapshot in
the Mistral branch and the Gemini branch's correct use of it show the
intent. -/
theorem extractSingle_mistral_provenance_lost :
    ((extractSingle none none (some [(("title"), jstr ("AI Fest"))]) none).data.title =
      jstr ("AI Fest")) ∧
    ((extractSingle none none (some [(("title"), jstr ("AI Fest"))]) none).mistralSuccess =
      true) ∧
    ((extractSingle none none (some [(("title"), jstr ("AI Fest"))]) none).fieldSource
      Field.title = none) := by
  exact ⟨rfl, rfl, rfl⟩

/-! ## C8: pricing normalization -/

theorem normPricing_shape : ∀ (v : JsVal) (r : JsVal), normPricing v = some r →
    nullOrNonemptyArr r = true := by
  intro v r h
  cases v with
  | jnull => simp only [normPricing, Option.some.injEq] at h; subst h; rfl
  | jundef => simp only [normPricing, Option.some.injEq] at h; subst h; rfl
  | jbool b => simp only [normPricing, Option.some.injEq] at h; subst h; rfl
  | jnum n => simp only [normPricing, Option.some.injEq] at h; subst h; rfl
  | jstr s =>
    simp only [normPricing, Option.some.injEq] at h
    rcases hp : parseRupiah (jstr s) with _ | n <;> rw [hp] at h <;> subst h <;> rfl
  | jobj fields =>
    simp only [normPricing] at h
    rcases ht : truthy (getF fields ("amount")) <;> rw [ht] at h <;> simp at h
    · subst h; rfl
    · rcases hp : parseRupiah (getF fields ("amount")) with _ | n <;>
        rw [hp] at h <;> subst h <;> rfl
  | jarr xs =>
    cases xs with
    | nil => simp only [normPricing, Option.some.injEq] at h; subst h; rfl
    | cons x t =>
      simp only [normPricing] at h
      rcases hm : (x :: t).mapM priceElem with _ | opts <;> rw [hm] at h
      · simp at h
      · simp only [Option.some.injEq] at h
        subst h
        rcases hq : opts.filterMap id with _ | ⟨p, ps⟩ <;> simp [hq] <;> rfl

theorem nullOrNonemptyArr_notEmptyArr (r : JsVal) (h : nullOrNonemptyArr r = true) :
    notEmptyArr r = true := by
  cases r with
  | jarr xs => cases xs with
    | nil => simp [nullOrNonemptyArr] at h
    | cons x t => rfl
  | jnull => rfl
  | jundef => simp [nullOrNonemptyArr] at h
  | jstr s => simp [nullOrNonemptyArr] at h
  | jnum n => simp [nullOrNonemptyArr] at h
  | jbool b => simp [nullOrNonemptyArr] at h
  | jobj f => simp [nullOrNonemptyArr] at h

/-- C8 counterexample: a null element inside a pricing array does not
"contribute nothing": since typeof null is "object", the code dereferences
p.amount on it and throws a TypeError, so the whole normalization aborts
instead of producing null. -/
theorem normPricing_null_element_cex :
    normPricing (jarr [jnull]) = none ∧ ¬normPricing (jarr [jnull]) = some jnull := by
  constructor
  · rfl
  · intro h
    rw [show normPricing (jarr [jnull]) = none from rfl] at h
    simp at h

/-- C8 amended: pricing normalization maps "Rp 50.000" to the one-element
list 50000, the number 50000 to that list, and the empty string, null or an
unparseable string to null, never to an empty array; strings are stripped
to their digits and parsed; an object with a truthy amount sub-field is
unwrapped one level; non-null unparseable list elements contribute nothing,
while a null list element makes the normalization throw. -/
theorem normPricing_spec :
    (normPricing (jstr ("Rp 50.000")) = some (jarr [jnum 50000])) ∧
    (normPricing (jnum 50000) = some (jarr [jnum 50000])) ∧
    (normPricing (jstr ("")) = some jnull) ∧
    (normPricing jnull = some jnull) ∧
    (normPricing (jstr ("gratis")) = some jnull) ∧
    (normPricing (jobj [(("amount"), jstr ("Rp 50.000"))]) = some (jarr [jnum 50000])) ∧
    (normPricing (jarr [jstr ("gratis"), jbool true, jnum 7]) = some (jarr [jnum 7])) ∧
    (∀ (v r : JsVal), normPricing v = some r → notEmptyArr r = true) ∧
    (normPricing (jarr [jnull]) = none) := by
  refine ⟨rfl, rfl, rfl, rfl, rfl, rfl, rfl, ?_, rfl⟩
  intro v r h
  exact nullOrNonemptyArr_notEmptyArr r (normPricing_shape v r h)

theorem normPricing_spec_witness : notEmptyArr (jarr [jnum 7]) = true :=
  normPricing_spec.2.2.2.2.2.2.2.1 (jarr [jstr ("gratis"), jbool true, jnum 7])
    (jarr [jnum 7]) rfl

/-! ## C10: normalize output well-formedness -/

theorem normOrganizer_wf (v : JsVal) : nullOrNonemptyArr (normOrganizer v) = true := by
  cases v with
  | jarr xs => cases xs <;> rfl
  | jnull => rfl
  | jundef => rfl
  | jstr s => rfl
  | jnum n => rfl
  | jbool b => rfl
  | jobj f => rfl

theorem normLevel_wf (v : JsVal) : nullOrNonemptyArr (normLevel v) = true := by
  cases v with
  | jstr s =>
    rcases hl : normalizeLevel (jstr s) with _ | l <;> simp [normLevel, hl] <;> rfl
  | jarr xs =>
    cases xs with
    | nil => rfl
    | cons x t =>
      rcases hv : (x :: t).filterMap normalizeLevel with _ | ⟨l, ls⟩ <;>
        simp [normLevel, hv] <;> rfl
  | jnull => rfl
  | jundef => rfl
  | jnum n => rfl
  | jbool b => rfl
  | jobj f => rfl

theorem normContact_wf (v : JsVal) : nullOrNonemptyArr (normContact v) = true := by
  cases v with
  | jstr s =>
    rcases he : (jsTrim s).isEmpty <;> simp [normContact, he] <;> rfl
  | jarr xs =>
    cases xs with
    | nil => rfl
    | cons x t =>
      rcases hk : (x :: t).filter (fun c =>
          match c with
          | jstr s => !(jsTrim s).isEmpty
          | _ => false) with _ | ⟨k, ks⟩ <;>
        simp [normContact, hk] <;> rfl
  | jnull => rfl
  | jundef => rfl
  | jnum n => rfl
  | jbool b => rfl
  | jobj f => rfl

theorem normCategories_shape : ∀ (v : JsVal) (r : JsVal), normCategories v = some r →
    nullOrNonemptyArr r = true := by
  intro v r h
  cases v with
  | jnull => simp only [normCategories, Option.some.injEq] at h; subst h; rfl
  | jundef => simp only [normCategories, Option.some.injEq] at h; subst h; rfl
  | jbool b => simp only [normCategories, Option.some.injEq] at h; subst h; rfl
  | jnum n => simp only [normCategories, Option.some.injEq] at h; subst h; rfl
  | jstr s =>
    simp only [normCategories, Option.some.injEq] at h
    rcases hc : normalizeCategory (jstr s) with _ | c <;> rw [hc] at h <;> subst h <;> rfl
  | jobj fields =>
    simp only [normCategories] at h
    rcases ht : truthy (getF fields ("type")) <;> rw [ht] at h <;> simp at h
    · subst h; rfl
    · rcases hc : normalizeCategory (getF fields ("type")) with _ | c <;>
        rw [hc] at h <;> subst h <;> rfl
  | jarr xs =>
    cases xs with
    | nil => simp only [normCategories, Option.some.injEq] at h; subst h; rfl
    | cons x t =>
      simp only [normCategories] at h
      rcases hm : (x :: t).mapM catElem with _ | opts <;> rw [hm] at h
      · simp at h
      · simp only [Option.some.injEq] at h
        subst h
        rcases hq : opts.filterMap id with _ | ⟨p, ps⟩ <;> simp [hq] <;> rfl

theorem normFormat_wf (v : JsVal) : nullOrStr (normFormat v) = true := by
  cases v with
  | jstr s =>
    rcases hf : normalizeFormat (jstr s) with _ | f <;> simp [normFormat, hf] <;> rfl
  | jnull => rfl
  | jundef => rfl
  | jarr xs => rfl
  | jnum n => rfl
  | jbool b => rfl
  | jobj f => rfl

theorem normParticipation_wf (v : JsVal) : nullOrNonemptyArr (normParticipation v) = true := by
  cases v with
  | jstr s =>
    rcases hp : normalizeParticipationType (jstr s) with _ | p <;>
      simp [normParticipation, hp] <;> rfl
  | jarr xs =>
    cases xs with
    | nil => rfl
    | cons x t =>
      rcases hv : (x :: t).filterMap (fun tk =>
          match tk with
          | jstr s => normalizeParticipationType (jstr s)
          | _ => none) with _ | ⟨p, ps⟩ <;>
        simp [normParticipation, hv] <;> rfl
  | jnull => rfl
  | jundef => rfl
  | jnum n => rfl
  | jbool b => rfl
  | jobj f => rfl

theorem normDateField_wf (v : JsVal) : nullOrStr (normDateField v) = true := by
  cases v with
  | jstr s =>
    rcases he : (jsTrim s).isEmpty <;> simp [normDateField, he]
    · rcases hd : normalizeDate (jstr s) with _ | d <;> simp [hd] <;> rfl
    · rfl
  | jarr xs =>
    cases xs with
    | nil => rfl
    | cons x t =>
      rcases hd : normalizeDate x with _ | d <;> simp [normDateField, hd] <;> rfl
  | jnull => rfl
  | jundef => rfl
  | jnum n => rfl
  | jbool b => rfl
  | jobj f => rfl

theorem trimIf_wf (s : String) :
    nullOrTrimmedStr (if (jsTrim s).isEmpty then jnull else jstr (jsTrim s)) = true := by
  rcases he : (jsTrim s).isEmpty
  · simp [he, nullOrTrimmedStr, jsTrim_idem]
  · simp [he]
    rfl

theorem strTrimmedNonempty_wf (v : JsVal) (t : String)
    (h : strTrimmedNonempty v = some t) : nullOrTrimmedStr (jstr t) = true := by
  cases v with
  | jstr s =>
    simp only [strTrimmedNonempty] at h
    rcases he : (jsTrim s).isEmpty <;> rw [he] at h <;> simp at h
    subst h
    simp [nullOrTrimmedStr, jsTrim_idem, he]
  | jnull => simp [strTrimmedNonempty] at h
  | jundef => simp [strTrimmedNonempty] at h
  | jarr xs => simp [strTrimmedNonempty] at h
  | jnum n => simp [strTrimmedNonempty] at h
  | jbool b => simp [strTrimmedNonempty] at h
  | jobj f => simp [strTrimmedNonempty] at h

theorem normTitle_wf (data : List (String × JsVal)) :
    nullOrTrimmedStr (normTitle data) = true := by
  unfold normTitle
  rcases h1 : strTrimmedNonempty (getF data ("title")) with _ | t
  · rcases h2 : strTrimmedNonempty (getF data ("competitionName")) with _ | t
    · rcases h3 : strTrimmedNonempty (getF data ("name")) with _ | t
      · rfl
      · exact strTrimmedNonempty_wf _ _ h3
    · exact strTrimmedNonempty_wf _ _ h2
  · exact strTrimmedNonempty_wf _ _ h1

theorem normUrl_wf (data : List (String × JsVal)) : nullOrTrimmedStr (normUrl data) = true := by
  unfold normUrl
  rcases hu : (if truthy (getF data ("url")) then getF data ("url")
      else getF data ("registrationUrl")) with _ | _ | s | n | b | xs | f
  · rfl
  · rfl
  · exact trimIf_wf s
  · rfl
  · rfl
  · cases xs with
    | nil => rfl
    | cons x t =>
      cases x with
      | jstr s => exact trimIf_wf s
      | jnull => rfl
      | jundef => rfl
      | jarr ys => rfl
      | jnum n => rfl
      | jbool b => rfl
      | jobj f => rfl
  · rfl

theorem normLocation_wf (v : JsVal) : nullOrTrimmedStr (normLocation v) = true := by
  cases v with
  | jstr s => exact trimIf_wf s
  | jnull => rfl
  | jundef => rfl
  | jarr xs => rfl
  | jnum n => rfl
  | jbool b => rfl
  | jobj f => rfl

/-- C10 counterexample: normalize does not return a record for every input
object — on a categories array containing null it throws a TypeError. -/
theorem normalize_throws_cex : normalize [(("categories"), jarr [jnull])] = none := rfl

/-- C10 amended: whenever normalize returns (does not throw), its result
defines all twelve canonical fields with no field undefined, every
array-valued field null or non-empty, format and the two dates null or
strings, and the free-text fields title, url and location null or trimmed
non-empty strings. -/
theorem normalize_wf (data : List (String × JsVal)) (c : Cleaned)
    (h : normalize data = some c) : cleanedWF c = true := by
  unfold normalize at h
  rcases hp : normPricing (getF data ("pricing")) with _ | p <;> rw [hp] at h
  · simp at h
  · rcases hc : normCategories (getF data ("categories")) with _ | cat <;> rw [hc] at h
    · simp at h
    · simp only [Option.some.injEq] at h
      subst h
      unfold cleanedWF
      simp only []
      rw [normOrganizer_wf, normLevel_wf, normContact_wf, normFormat_wf,
        normParticipation_wf, normTitle_wf, normDateField_wf, normDateField_wf,
        normUrl_wf, normLocation_wf, normPricing_shape _ p hp,
        normCategories_shape _ cat hc]
      rfl

theorem normalize_wf_witness : cleanedWF initAccumulator = true :=
  normalize_wf [] initAccumulator rfl

/-! ## C9: uploadToR2 frame property -/

theorem mapIdxFrom_length (f : Nat → α → β) :
    ∀ (s : Nat) (l : List α), (mapIdxFrom f s l).length = l.length := by
  intro s l
  induction l generalizing s with
  | nil => rfl
  | cons a t ih => simp [mapIdxFrom, ih]

theorem mapIdxFrom_append (f : Nat → α → β) :
    ∀ (l1 l2 : List α) (s : Nat),
      mapIdxFrom f s (l1 ++ l2) = mapIdxFrom f s l1 ++ mapIdxFrom f (s + l1.length) l2 := by
  intro l1
  induction l1 with
  | nil => intro l2 s; simp [mapIdxFrom]
  | cons a t ih =>
    intro l2 s
    simp only [List.cons_append, mapIdxFrom, List.length_cons, List.append_eq]
    rw [ih l2 (s + 1), show s + (t.length + 1) = s + 1 + t.length from by omega]

theorem mapIdxFrom_getD (f : Nat → α → α) (d : α) :
    ∀ (l : List α) (s i : Nat), i < l.length →
      (mapIdxFrom f s l).getD i d = f (s + i) (l.getD i d) := by
  intro l
  induction l with
  | nil => intro s i h; simp at h
  | cons a t ih =>
    intro s i h
    cases i with
    | zero => simp [mapIdxFrom]
    | succ j =>
      have hj : j < t.length := by simpa using h
      simp only [mapIdxFrom, List.getD_cons_succ]
      rw [ih (s + 1) j hj]
      congr 1
      omega

theorem runBatches_chunkAux (f : Nat → UploadPost → UploadPost) (n : Nat) :
    ∀ (fuel : Nat) (l : List UploadPost) (s : Nat), l.length ≤ fuel →
      runBatches f (chunkAux (n + 1) fuel l) s = mapIdxFrom f s l := by
  intro fuel
  induction fuel with
  | zero =>
    intro l s h
    have : l = [] := List.eq_nil_of_length_eq_zero (Nat.le_zero.mp h)
    subst this
    rfl
  | succ fu ih =>
    intro l s h
    cases l with
    | nil => rfl
    | cons x xs =>
      have hlen : ((x :: xs).drop (n + 1)).length ≤ fu := by
        simp [List.length_drop] at *
        omega
      simp only [chunkAux, runBatches]
      rw [ih _ _ hlen]
      conv_rhs => rw [← List.take_append_drop (n + 1) (x :: xs)]
      rw [mapIdxFrom_append]

theorem uploadAttempts_originalUrl (oracle : Nat → AttemptOutcome) (okUrl imageUrl : String) :
    ∀ (fuel attempt : Nat),
      (uploadAttempts oracle okUrl imageUrl attempt fuel).originalUrl = imageUrl := by
  intro fuel
  induction fuel with
  | zero => intro a; rfl
  | succ fu ih =>
    intro a
    simp only [uploadAttempts]
    cases oracle a with
    | ok => rfl
    | err r => cases r with
      | true => exact ih (a + 1)
      | false => rfl

theorem uploadAttempts_success_r2Url (oracle : Nat → AttemptOutcome) (okUrl imageUrl : String) :
    ∀ (fuel attempt : Nat),
      (uploadAttempts oracle okUrl imageUrl attempt fuel).success = true →
      (uploadAttempts oracle okUrl imageUrl attempt fuel).r2Url = some okUrl := by
  intro fuel
  induction fuel with
  | zero => intro a h; simp [uploadAttempts] at h
  | succ fu ih =>
    intro a h
    simp only [uploadAttempts] at h ⊢
    rcases ho : oracle a with _ | r
    · simp [ho]
    · cases r
      · simp [ho] at h
      · simp only [ho] at h ⊢
        simp at h ⊢
        exact ih (a + 1) h

theorem uploadSingleImage_originalUrl (post : UploadPost) (oracle : Nat → AttemptOutcome)
    (maxAttempts : Nat) (pub : String) (now : Nat) :
    (uploadSingleImage post oracle maxAttempts pub now).originalUrl = post.image := by
  unfold uploadSingleImage
  rcases hc : (post.image.isEmpty || !strStarts post.image ("http"))
  · have hneg : ¬((post.image.isEmpty || !strStarts post.image ("http")) = true) := by
      simp [hc]
    rw [if_neg hneg]
    exact uploadAttempts_originalUrl oracle _ post.image maxAttempts 0
  · rw [if_pos hc]

theorem uploadSingleImage_success_r2Url (post : UploadPost) (oracle : Nat → AttemptOutcome)
    (maxAttempts : Nat) (pub : String) (now : Nat)
    (h : (uploadSingleImage post oracle maxAttempts pub now).success = true) :
    (uploadSingleImage post oracle maxAttempts pub now).r2Url =
      some (pub ++ ("/") ++ mkFilename now post) := by
  unfold uploadSingleImage at *
  rcases hc : (post.image.isEmpty || !strStarts post.image ("http"))
  · have hneg : ¬((post.image.isEmpty || !strStarts post.image ("http")) = true) := by
      simp [hc]
    rw [if_neg hneg] at h ⊢
    exact uploadAttempts_success_r2Url oracle _ post.image maxAttempts 0 h
  · rw [if_pos hc] at h
    simp at h

/-- C9: uploadToR2 returns a list of the same length and order, each output
post equal to its input except for the image field, which becomes the
constructed public URL (publicUrl/filename) when the upload succeeded and
stays the original upstream URL otherwise; with no bucket binding the input
list is returned unchanged. -/
theorem uploadToR2_frame (posts : List UploadPost) (oracles : Nat → Nat → AttemptOutcome)
    (maxAttempts : Nat) (pub : String) (nows : Nat → Nat) (batchSize : Nat)
    (hbs : 1 ≤ batchSize) :
    (uploadToR2 posts false oracles maxAttempts pub nows batchSize = posts) ∧
    ((uploadToR2 posts true oracles maxAttempts pub nows batchSize).length = posts.length) ∧
    (∀ i, i < posts.length →
      (uploadToR2 posts true oracles maxAttempts pub nows batchSize).getD i
          { title := none, username := none, image := ("") } =
        (let p := posts.getD i { title := none, username := none, image := ("") }
         if (uploadSingleImage p (oracles i) maxAttempts pub (nows i)).success then
           { p with image := pub ++ ("/") ++ mkFilename (nows i) p }
         else p)) := by
  obtain ⟨n, rfl⟩ : ∃ n, batchSize = n + 1 := ⟨batchSize - 1, by omega⟩
  have hrun : uploadToR2 posts true oracles maxAttempts pub nows (n + 1) =
      mapIdxFrom
        (fun i p => applyUpload p (uploadSingleImage p (oracles i) maxAttempts pub (nows i)))
        0 posts := by
    simp only [uploadToR2, Bool.not_true, if_neg]
    exact runBatches_chunkAux _ n posts.length posts 0 (Nat.le_refl _)
  refine ⟨rfl, ?_, ?_⟩
  · rw [hrun, mapIdxFrom_length]
  · intro i hi
    rw [hrun, mapIdxFrom_getD _ _ posts 0 i hi]
    simp only [Nat.zero_add]
    set p := posts.getD i { title := none, username := none, image := ("") } with hp
    rcases hs : (uploadSingleImage p (oracles i) maxAttempts pub (nows i)).success
    · simp only [applyUpload, hs, if_neg]
      rw [uploadSingleImage_originalUrl]
      simp
    · simp only [applyUpload, hs, if_pos]
      rw [uploadSingleImage_success_r2Url p (oracles i) maxAttempts pub (nows i) hs]
      simp

theorem uploadToR2_frame_witness :
    ((uploadToR2 [{ title := some ("Lomba AI"), username := none, image := ("https://img") }]
        true (fun _ _ => AttemptOutcome.ok) 3 ("https://cdn") (fun _ => 111) 40).length = 1) ∧
    ((uploadToR2 [{ title := some ("Lomba AI"), username := none, image := ("https://img") }]
        true (fun _ _ => AttemptOutcome.ok) 3 ("https://cdn") (fun _ => 111) 40).getD 0
        { title := none, username := none, image := ("") } =
      { title := some ("Lomba AI"), username := none,
        image := ("https://cdn/111-lomba_ai.jpg") }) := by
  constructor
  · exact (uploadToR2_frame
      [{ title := some ("Lomba AI"), username := none, image := ("https://img") }]
      (fun _ _ => AttemptOutcome.ok) 3 ("https://cdn") (fun _ => 111) 40 (by omega)).2.1
  · have h := (uploadToR2_frame
      [{ title := some ("Lomba AI"), username := none, image := ("https://img") }]
      (fun _ _ => AttemptOutcome.ok) 3 ("https://cdn") (fun _ => 111) 40 (by omega)).2.2 0
      (by simp)
    rw [h]
    rfl

end CompAuto
